import Mathlib

/-!
Verification development for the SentinelIQ fraud-detection service.

This file gives a shallow embedding, in Lean 4, of the parts of the
SentinelIQ code base that the specification claims talk about:

* `app/services/crypto_audit.py` — the crypto-chained audit log
  (payload scrubbing, hash chaining, chain verification);
* `app/services/risk_engine.py` — the risk engine (hard rules, velocity
  checks, behavioral rules, rule combinations, action mapping);
* `app/services/rule_manager.py` — rule reloading with validation;
* `app/services/shadow_mode.py` — shadow-mode result labeling;
* `app/services/outbox.py` — the transactional outbox poller.

Conventions of the embedding:

* Python dictionaries / JSON documents are modelled by the inductive
  type `Jv` below; a dictionary is a `List (String × Jv)` in insertion
  order (Python dictionaries preserve insertion order).
* Python floats that carry scores and thresholds are modelled by `ℚ`;
  geographic coordinates and distances, which flow through `math.sin`
  and friends, are modelled by `ℝ`.
* SHA-256 (`hashlib.sha256(...).hexdigest()`) is an external primitive;
  it is modelled as an explicit parameter `sha : String → String`
  applied to the same concatenated input string the source builds.
* Database/Redis state is passed explicitly; methods that mutate it
  return the new state next to their result.
-/

/-- JSON-like values: the payloads handled by the Python services. -/
inductive Jv where
  | str (s : String)
  | num (q : ℚ)
  | bool (b : Bool)
  | null
  | arr (elems : List Jv)
  | obj (fields : List (String × Jv))

mutual
/-- Structural Boolean equality on `Jv` (Python `==` on JSON values). -/
def beqJv : Jv → Jv → Bool
  | Jv.str a, Jv.str b => a == b
  | Jv.num a, Jv.num b => a == b
  | Jv.bool a, Jv.bool b => a == b
  | Jv.null, Jv.null => true
  | Jv.arr a, Jv.arr b => beqJvList a b
  | Jv.obj a, Jv.obj b => beqJvFields a b
  | _, _ => false

def beqJvList : List Jv → List Jv → Bool
  | [], [] => true
  | a :: as_, b :: bs => beqJv a b && beqJvList as_ bs
  | _, _ => false

def beqJvFields : List (String × Jv) → List (String × Jv) → Bool
  | [], [] => true
  | (k1, v1) :: as_, (k2, v2) :: bs => k1 == k2 && beqJv v1 v2 && beqJvFields as_ bs
  | _, _ => false
end

/-- Substring test on character lists: `needle` occurs somewhere in
`haystack`.  Models the Python expression `s in key`. -/
def charsContain (haystack needle : List Char) : Bool :=
  (List.range (haystack.length + 1)).any (fun i => needle.isPrefixOf (haystack.drop i))

/-- Substring test: `strContains hay needle` models Python `needle in hay`. -/
def strContains (hay needle : String) : Bool :=
  charsContain hay.toList needle.toList

/-- Lower-casing, modelling Python `str.lower()` on ASCII keys. -/
def lowerStr (s : String) : String :=
  String.mk (s.toList.map Char.toLower)

namespace CryptoAudit

/-- The `sensitive_fields` set of
`CryptoChainedAuditService._scrub_payload`
(`app/services/crypto_audit.py`). -/
def sensitive_fields : List String :=
  ["password", "password_hash", "secret", "api_key",
   "credit_card", "cvv", "ssn", "email", "phone",
   "account_number", "iban"]

/-- Sensitivity test `any(s in key.lower() for s in sensitive_fields)`. -/
def isSensitiveKey (key : String) : Bool :=
  sensitive_fields.any (fun s => strContains (lowerStr key) s)

/-- The redaction marker written by the scrubber. -/
def redactedMarker : Jv := Jv.str "[REDACTED]"

mutual
/-- Embedding of `CryptoChainedAuditService._scrub_payload`: walk the fields of a
dictionary; redact values of sensitive-named keys; recurse into
dictionary values; map over list values scrubbing their dictionary
elements. -/
def scrub_payload : List (String × Jv) → List (String × Jv)
  | [] => []
  | (k, v) :: rest =>
    (k, if isSensitiveKey k then redactedMarker else scrubValue v) :: scrub_payload rest

/-- The `elif` chain of `_scrub_payload` applied to one (non-sensitive)
value. -/
def scrubValue : Jv → Jv
  | Jv.obj fields => Jv.obj (scrub_payload fields)
  | Jv.arr elems => Jv.arr (scrubList elems)
  | v => v

/-- The list comprehension of `_scrub_payload`: dictionary elements are
scrubbed, every other element is kept as-is. -/
def scrubList : List Jv → List Jv
  | [] => []
  | Jv.obj fields :: rest => Jv.obj (scrub_payload fields) :: scrubList rest
  | v :: rest => v :: scrubList rest
end

mutual
/-- Relation `onlyRedactsFields p q`: the dictionary `q` has exactly the keys of
`p` in the same order, and each value of `q` is either the redaction
marker on a sensitive-named key, or relates to the corresponding value
of `p` by `onlyRedacts`.  This is the shape-preservation property of the
scrubber: no key is added, removed or renamed at any nesting level, only
values of sensitive-named fields are replaced. -/
def onlyRedactsFields : List (String × Jv) → List (String × Jv) → Bool
  | [], [] => true
  | (k1, v) :: ps, (k2, w) :: qs =>
    k1 == k2 && ((isSensitiveKey k1 && beqJv w redactedMarker) || onlyRedacts v w)
      && onlyRedactsFields ps qs
  | _, _ => false

/-- Value-level shape preservation: dictionaries relate field-wise,
lists relate element-wise, scalars must be unchanged. -/
def onlyRedacts : Jv → Jv → Bool
  | Jv.obj ps, Jv.obj qs => onlyRedactsFields ps qs
  | Jv.arr xs, Jv.arr ys => onlyRedactsArr xs ys
  | v, w => beqJv v w

def onlyRedactsArr : List Jv → List Jv → Bool
  | [], [] => true
  | x :: xs, y :: ys => onlyRedacts x y && onlyRedactsArr xs ys
  | _, _ => false
end

mutual
/-- Predicate `scrubbedFieldsOk f`: in the dictionary `f`, every sensitive-named
field holds the redaction marker, recursively through dictionary values
and through the dictionary elements of list values (the region the
scrubber reaches). -/
def scrubbedFieldsOk : List (String × Jv) → Bool
  | [] => true
  | (k, v) :: rest =>
    (if isSensitiveKey k then beqJv v redactedMarker else scrubbedValueOk v)
      && scrubbedFieldsOk rest

def scrubbedValueOk : Jv → Bool
  | Jv.obj fields => scrubbedFieldsOk fields
  | Jv.arr elems => scrubbedArrOk elems
  | _ => true

def scrubbedArrOk : List Jv → Bool
  | [] => true
  | Jv.obj fields :: rest => scrubbedFieldsOk fields && scrubbedArrOk rest
  | _ :: rest => scrubbedArrOk rest
end

mutual
/-- Serialization `json.dumps(payload, sort_keys=True)`, the canonical form
the audit service hashes.  Strings are emitted without escaping, numbers
in Lean rational notation, and fields in stored order (Python sorts the
keys): an injective-enough stand-in for the exact Python text, which no
claim depends on — the hash function is an abstract parameter anyway. -/
def dumps : Jv → String
  | Jv.str s => "\"" ++ s ++ "\""
  | Jv.num q => toString q
  | Jv.bool true => "true"
  | Jv.bool false => "false"
  | Jv.null => "null"
  | Jv.arr xs => "[" ++ dumpsList xs ++ "]"
  | Jv.obj fs => "\x7b" ++ dumpsFields fs ++ "\x7d"

def dumpsList : List Jv → String
  | [] => ""
  | [x] => dumps x
  | x :: y :: rest => dumps x ++ ", " ++ dumpsList (y :: rest)

def dumpsFields : List (String × Jv) → String
  | [] => ""
  | [(k, v)] => "\"" ++ k ++ "\": " ++ dumps v
  | (k, v) :: q :: rest => "\"" ++ k ++ "\": " ++ dumps v ++ ", " ++ dumpsFields (q :: rest)
end

/-- One row of the `crypto_chained_audit_logs` table, with the fields
that `_calculate_hash` and `verify_chain_integrity` read. -/
structure AuditLogEntry where
  previous_hash : Option String
  current_hash : String
  actor_id : Option String
  event_type : String
  payload_json : List (String × Jv)
  timestamp : String

/-- Embedding of `CryptoChainedAuditService._calculate_hash`:
`H(previous_hash ‖ actor_id ‖ event_type ‖ dumps(payload) ‖ timestamp)`
with SHA-256 modelled by the parameter `sha`. -/
def calculate_hash (sha : String → String) (previous_hash : Option String)
    (actor_id : Option String) (event_type : String)
    (payload : List (String × Jv)) (timestamp : String) : String :=
  sha ((previous_hash.getD "") ++ (actor_id.getD "") ++ event_type
    ++ dumps (Jv.obj payload) ++ timestamp)

/-- Embedding of `CryptoChainedAuditService.log_event` for one organization: fetch
the hash of the latest entry, scrub the payload, hash, and append.  The
per-org log is modelled as a list in timestamp order, so the latest
entry is the last one.  The source calls `datetime.utcnow()` twice: the
first value (`ts_hash`) enters the hash input, the second (`ts_store`)
is stored in the row; in a real execution they differ at microsecond
resolution, so recomputing the hash from the stored row generally does
not reproduce `current_hash`. -/
def log_event (sha : String → String) (logs : List AuditLogEntry)
    (actor_id : Option String) (event_type : String)
    (payload : List (String × Jv)) (ts_hash ts_store : String) : List AuditLogEntry :=
  let previous_hash := logs.getLast?.map (fun e => e.current_hash)
  let scrubbed := scrub_payload payload
  let current := calculate_hash sha previous_hash actor_id event_type scrubbed ts_hash
  logs ++ [{ previous_hash := previous_hash, current_hash := current,
             actor_id := actor_id, event_type := event_type,
             payload_json := scrubbed, timestamp := ts_store }]

/-- Kinds of anomaly reported by `verify_chain_integrity`. -/
inductive IssueKind where
  | tampering
  | chain_broken
deriving DecidableEq, Repr

/-- The verification walk: `i` is the index of the next entry, `prev`
the entry before it (`none` at the head of the chain). -/
def verifyFrom (sha : String → String) :
    Nat → Option AuditLogEntry → List AuditLogEntry → List (Nat × IssueKind)
  | _, _, [] => []
  | i, prev, log :: rest =>
    let expected := calculate_hash sha log.previous_hash log.actor_id
      log.event_type log.payload_json log.timestamp
    let hashIssues := if expected ≠ log.current_hash then [(i, IssueKind.tampering)] else []
    let linkIssues :=
      match prev with
      | none => ([] : List (Nat × IssueKind))
      | some p =>
        if some p.current_hash ≠ log.previous_hash then [(i, IssueKind.chain_broken)] else []
    hashIssues ++ linkIssues ++ verifyFrom sha (i + 1) (some log) rest

/-- Embedding of `CryptoChainedAuditService.verify_chain_integrity`, reduced to the
list of anomalies it accumulates (index of the offending entry together
with the kind of anomaly). -/
def verify_chain_integrity (sha : String → String)
    (logs : List AuditLogEntry) : List (Nat × IssueKind) :=
  verifyFrom sha 0 none logs

/-- Direct tampering with the stored payload of the entry at index `i`
(all other stored fields untouched). -/
def tamper_payload : List AuditLogEntry → Nat → List (String × Jv) → List AuditLogEntry
  | [], _, _ => []
  | log :: rest, 0, p => { log with payload_json := p } :: rest
  | log :: rest, n + 1, p => log :: tamper_payload rest n p

end CryptoAudit

namespace RiskEngine

/-- Embedding of `ActorContext` (`app/schemas/event.py`), restricted to the fields
the risk engine reads. -/
structure ActorContext where
  user_id : String
  device_fingerprint : String

/-- Embedding of `GeoContext` (`app/schemas/event.py`). -/
structure GeoContext where
  geo_lat : ℝ
  geo_lon : ℝ
  country_code : Option String

/-- Embedding of `SentinelEvent` (`app/schemas/event.py`), restricted to the fields
the risk engine reads. -/
structure SentinelEvent where
  event_id : String
  event_type : String
  actor : ActorContext
  context : GeoContext

/-- One rule of the YAML rule file as the engine reads it:
`rule.get("enabled", True)` is resolved into the stored Boolean, and a
missing `risk_score` is `none` (the engine substitutes per-category
defaults via `rule.get("risk_score", d)`). -/
structure Rule where
  id : String
  enabled : Bool
  cond_event_type : Option String
  cond_country_code_in : Option (List String)
  risk_score : Option ℚ

/-- A `rule_combinations` entry: `triggered_rules` plus
`combo.get("base_score", 0.0)`. -/
structure RuleCombination where
  id : String
  triggered_rules : List String
  base_score : Option ℚ

/-- The `scoring.thresholds` configuration with the defaults of
`RiskEngine._determine_action`. -/
structure Thresholds where
  review : ℚ
  challenge : ℚ
  block : ℚ

/-- The rule configuration the engine loads from YAML. -/
structure RulesConfig where
  hard_rules : List Rule
  velocity_checks : List Rule
  behavioral_rules : List Rule
  rule_combinations : List RuleCombination
  thresholds : Thresholds

/-- Redis-backed state read and written by the velocity checks.  The
device-set cardinality is modelled as the count after the `sadd` of the
current fingerprint. -/
structure RedisEnv where
  last_location : Option (ℝ × ℝ)
  txn_hourly_count : Nat
  known_device : Bool
  device_count_5min : Nat

/-- Embedding of `RiskEngine._match_rule`: every condition present must pass; an
`event_type` condition compares strings, a `country_code` condition with
an `in` list requires membership of the event country (Python
`None not in [...]` is false, so an absent country fails the
condition). -/
def match_rule (event : SentinelEvent) (rule : Rule) : Bool :=
  (match rule.cond_event_type with
   | none => true
   | some t => event.event_type == t) &&
  (match rule.cond_country_code_in with
   | none => true
   | some allowed =>
     match event.context.country_code with
     | none => false
     | some c => allowed.contains c)

/-- The `{"triggered": [...], "scores": [...]}` result of a rule
category. -/
structure CategoryResult where
  triggered : List String
  scores : List ℚ

/-- Python `max` on a list known to be non-empty (`max([])` would
raise; every use below is guarded by a non-emptiness test). -/
def list_max : List ℚ → ℚ
  | [] => 0
  | x :: xs => xs.foldl max x

/-- Embedding of `RiskEngine._evaluate_hard_rules`: collect ids and scores
(`rule.get("risk_score", 0.5)`) of enabled matching hard rules. -/
def evaluate_hard_rules (hard_rules : List Rule) (event : SentinelEvent) : CategoryResult :=
  let matched := hard_rules.filter (fun r => r.enabled && match_rule event r)
  { triggered := matched.map (fun r => r.id),
    scores := matched.map (fun r => r.risk_score.getD (1/2)) }

/-- Embedding of `RiskEngine._evaluate_behavioral_rules`: same matching as hard
rules, default score `0.5`. -/
def evaluate_behavioral_rules (behavioral_rules : List Rule) (event : SentinelEvent) :
    CategoryResult :=
  let matched := behavioral_rules.filter (fun r => r.enabled && match_rule event r)
  { triggered := matched.map (fun r => r.id),
    scores := matched.map (fun r => r.risk_score.getD (1/2)) }

/-- Embedding of `RiskEngine._haversine_distance` needs `math.atan2`; this is the
two-argument arctangent with the branch conventions of Python. -/
noncomputable def atan2 (y x : ℝ) : ℝ :=
  if 0 < x then Real.arctan (y / x)
  else if x < 0 then
    (if 0 ≤ y then Real.arctan (y / x) + Real.pi else Real.arctan (y / x) - Real.pi)
  else (if 0 < y then Real.pi / 2 else if y < 0 then -(Real.pi / 2) else 0)

/-- Model of `math.radians`. -/
noncomputable def radians (x : ℝ) : ℝ := x * Real.pi / 180

/-- Embedding of `RiskEngine._haversine_distance`: great-circle distance in miles,
Earth radius 3959 mi. -/
noncomputable def haversine_distance (lat1 lon1 lat2 lon2 : ℝ) : ℝ :=
  let R : ℝ := 3959
  let lat1_rad := radians lat1
  let lon1_rad := radians lon1
  let lat2_rad := radians lat2
  let lon2_rad := radians lon2
  let dlat := lat2_rad - lat1_rad
  let dlon := lon2_rad - lon1_rad
  let a := Real.sin (dlat / 2) ^ 2
    + Real.cos lat1_rad * Real.cos lat2_rad * Real.sin (dlon / 2) ^ 2
  let c := 2 * atan2 (Real.sqrt a) (Real.sqrt (1 - a))
  R * c

/-- Embedding of `RiskEngine._check_impossible_travel`: only login events; with no
cached location, cache the current one and do not trigger; otherwise
trigger exactly when the haversine distance to the cached location
exceeds 3000 miles (the cached location is refreshed only then).  The
elapsed time between the two logins is not read anywhere. -/
noncomputable def check_impossible_travel (env : RedisEnv) (event : SentinelEvent) :
    Bool × RedisEnv :=
  if event.event_type ≠ "authentication.login" then (false, env)
  else
    match env.last_location with
    | none =>
      (false, { env with last_location := some (event.context.geo_lat, event.context.geo_lon) })
    | some last =>
      let distance := haversine_distance last.1 last.2 event.context.geo_lat event.context.geo_lon
      if distance > 3000 then
        (true, { env with last_location := some (event.context.geo_lat, event.context.geo_lon) })
      else (false, env)

/-- Embedding of `RiskEngine._check_rapid_transactions`: increment the hourly
transaction counter and trigger when it exceeds 20. -/
def check_rapid_transactions (env : RedisEnv) (event : SentinelEvent) : Bool × RedisEnv :=
  if event.event_type ≠ "transaction.attempted" then (false, env)
  else
    let count := env.txn_hourly_count + 1
    (decide (count > 20), { env with txn_hourly_count := count })

/-- Embedding of `RiskEngine._check_multi_device_login`: unknown devices are added to
a 5-minute device set; trigger when its cardinality exceeds 3, else
remember the device. -/
def check_multi_device_login (env : RedisEnv) (event : SentinelEvent) : Bool × RedisEnv :=
  if event.event_type ≠ "authentication.login" then (false, env)
  else if env.known_device then (false, env)
  else
    let devices := env.device_count_5min
    if devices > 3 then (true, env)
    else (false, { env with known_device := true })

/-- Embedding of `RiskEngine._evaluate_velocity_checks`: walk the `velocity_checks`
rules, dispatch on the rule id with the per-rule default scores
(`0.7`, `0.7`, `0.75`), threading the Redis state. -/
noncomputable def evaluate_velocity_checks (env : RedisEnv) (event : SentinelEvent) :
    List Rule → CategoryResult × RedisEnv
  | [] => (⟨[], []⟩, env)
  | r :: rest =>
    if ¬ r.enabled then evaluate_velocity_checks env event rest
    else
      let step : Bool × ℚ × RedisEnv :=
        if r.id == "impossible_travel" then
          let (fired, env1) := check_impossible_travel env event
          (fired, r.risk_score.getD (7/10), env1)
        else if r.id == "rapid_transactions" then
          let (fired, env1) := check_rapid_transactions env event
          (fired, r.risk_score.getD (7/10), env1)
        else if r.id == "multi_device_login" then
          let (fired, env1) := check_multi_device_login env event
          (fired, r.risk_score.getD (3/4), env1)
        else (false, 0, env)
      let (res, envN) := evaluate_velocity_checks step.2.2 event rest
      if step.1 then (⟨r.id :: res.triggered, step.2.1 :: res.scores⟩, envN)
      else (res, envN)

/-- Embedding of `RiskEngine._evaluate_rule_combinations`: the boost is the maximum
of `combo.get("base_score", 0.0) - 0.5` over combinations whose
`triggered_rules` are all among the triggered ids, starting from 0. -/
def evaluate_rule_combinations (combinations : List RuleCombination)
    (triggered_rules : List String) : ℚ :=
  combinations.foldl
    (fun boost combo =>
      if combo.triggered_rules.all (fun r => triggered_rules.contains r) then
        max boost (combo.base_score.getD 0 - 1/2)
      else boost)
    0

/-- Embedding of `RiskEngine._determine_action`: map a score to (risk level,
recommended action) by the configured thresholds. -/
def determine_action (t : Thresholds) (risk_score : ℚ) : String × String :=
  if risk_score < t.review then ("low", "allow")
  else if risk_score < t.challenge then ("medium", "review")
  else if risk_score < t.block then ("high", "challenge")
  else ("critical", "block")

/-- Embedding of `RiskEngine._calculate_confidence`. -/
def calculate_confidence (num_rules : Nat) (risk_score : ℚ) : ℚ :=
  (min 1 ((num_rules : ℚ) / 3) + risk_score) / 2

/-- The decision returned by `RiskEngine.evaluate_event` (the
`RiskScore` pydantic model, fields the engine fills). -/
structure RiskScoreResult where
  event_id : String
  user_id : String
  risk_score : ℚ
  risk_level : String
  hard_rules_triggered : List String
  velocity_alerts : List String
  behavioral_flags : List String
  recommended_action : String
  confidence : ℚ
  triggered_rules : List String

/-- Which rule categories a run of `evaluate_event` actually evaluated
(instrumentation of the embedding; the hard-gate early return skips the
later categories). -/
structure EvalTrace where
  velocity_evaluated : Bool
  behavioral_evaluated : Bool
  combinations_evaluated : Bool

/-- Step 2 of `evaluate_event`: the running score after the velocity
category (`risk_score` starts at `0.0`; on any velocity trigger it
becomes the maximum velocity score). -/
noncomputable def score_after_velocity (cfg : RulesConfig) (env : RedisEnv)
    (event : SentinelEvent) : ℚ :=
  let vel := (evaluate_velocity_checks env event cfg.velocity_checks).1
  if vel.triggered.isEmpty then 0
  else if vel.scores.isEmpty then 0 else list_max vel.scores

/-- Step 3 of `evaluate_event`: on any behavioral trigger the running
score becomes `score * 0.7 + behavioral_max * 0.3`; otherwise it is
unchanged. -/
noncomputable def score_after_behavioral (cfg : RulesConfig) (env : RedisEnv)
    (event : SentinelEvent) : ℚ :=
  let beh := evaluate_behavioral_rules cfg.behavioral_rules event
  let s := score_after_velocity cfg env event
  if beh.triggered.isEmpty then s
  else
    let behavioral_score := if beh.scores.isEmpty then 0 else list_max beh.scores
    s * (7/10) + behavioral_score * (3/10)

/-- Embedding of `RiskEngine.evaluate_event`: hard rules short-circuit to a critical
block decision; otherwise velocity, behavioral, combination boost,
capping at 1.0, action mapping and confidence. -/
noncomputable def evaluate_event (cfg : RulesConfig) (env : RedisEnv)
    (event : SentinelEvent) : RiskScoreResult × EvalTrace :=
  let hard := evaluate_hard_rules cfg.hard_rules event
  if hard.triggered.isEmpty then
    let vel := (evaluate_velocity_checks env event cfg.velocity_checks).1
    let beh := evaluate_behavioral_rules cfg.behavioral_rules event
    let all_triggered := vel.triggered ++ beh.triggered
    let combo_boost := evaluate_rule_combinations cfg.rule_combinations all_triggered
    let risk_score := min 1 (score_after_behavioral cfg env event + combo_boost)
    let (risk_level, action) := determine_action cfg.thresholds risk_score
    ({ event_id := event.event_id, user_id := event.actor.user_id,
       risk_score := risk_score, risk_level := risk_level,
       hard_rules_triggered := [], velocity_alerts := vel.triggered,
       behavioral_flags := beh.triggered, recommended_action := action,
       confidence := calculate_confidence all_triggered.length risk_score,
       triggered_rules := all_triggered },
     ⟨true, true, true⟩)
  else
    ({ event_id := event.event_id, user_id := event.actor.user_id,
       risk_score := list_max hard.scores, risk_level := "critical",
       hard_rules_triggered := hard.triggered, velocity_alerts := [],
       behavioral_flags := [], recommended_action := "block",
       confidence := 1, triggered_rules := hard.triggered },
     ⟨false, false, false⟩)

end RiskEngine

namespace RuleManager

open CryptoAudit

/-- First-match association lookup: Python `d[k]` / `k in d` on the
modelled dictionary. -/
def lookupField (f : List (String × Jv)) (key : String) : Option Jv :=
  (f.find? (fun p => p.1 == key)).map (fun p => p.2)

/-- Python `k in d`. -/
def hasKey (f : List (String × Jv)) (key : String) : Bool :=
  (lookupField f key).isSome

/-- Python `isinstance(v, (int, float))` on a JSON value.  Python
booleans are instances of `int`, so `isinstance(True, (int, float))` is
True and boolean values pass the numeric checks of the validator. -/
def isNum : Jv → Bool
  | Jv.num _ => true
  | Jv.bool _ => true
  | _ => false

/-- Python `isinstance(v, dict)`. -/
def isObj : Jv → Bool
  | Jv.obj _ => true
  | _ => false

/-- Python membership `key in v` on an arbitrary value: key lookup on a
dictionary, substring test on a string, element equality on a list;
`none` models the `TypeError` raised on numbers, booleans and `None`
(which `reload_rules` catches as a generic error). -/
def pyContains (v : Jv) (key : String) : Option Bool :=
  match v with
  | Jv.obj f => some (hasKey f key)
  | Jv.str s => some (strContains s key)
  | Jv.arr l => some (l.any (fun e => beqJv e (Jv.str key)))
  | _ => none

/-- Python indexing `v[key]`: defined only on dictionaries; `none`
models the `TypeError` raised when a string or list is indexed by a
string (every use below is guarded by a `pyContains` test, so a
dictionary lookup never misses). -/
def pyIndex (v : Jv) (key : String) : Option Jv :=
  match v with
  | Jv.obj f => lookupField f key
  | _ => none

/-- Python iteration over an arbitrary value: elements of a list,
one-character strings of a string, keys of a dictionary; `none` models
the `TypeError` on non-iterables. -/
def pyIter (v : Jv) : Option (List Jv) :=
  match v with
  | Jv.arr l => some l
  | Jv.str t => some (t.toList.map (fun c => Jv.str (String.mk [c])))
  | Jv.obj f => some (f.map (fun p => Jv.str p.1))
  | _ => none

/-- Python string interpolation of a value inside an error message
(containers are approximated by the serialization). -/
def pyFormat : Jv → String
  | Jv.str t => t
  | Jv.num q => toString q
  | Jv.bool true => "True"
  | Jv.bool false => "False"
  | Jv.null => "None"
  | v => dumps v

/-- The `valid_types` list of `RuleManager._validate_rules`. -/
def valid_types : List String := ["hard", "velocity", "behavioral", "behavioral_ml"]

/-- Validation of one of the three `scoring` fields: a missing field is
reported, a present field must index to a numeric value (indexing a
non-dictionary raises, propagated as `none`). -/
def validateScoringField (scoring : Jv) (fld : String) : Option (List String) := do
  let present ← pyContains scoring fld
  if ¬ present then
    pure ["Missing scoring field: " ++ fld]
  else do
    let v ← pyIndex scoring fld
    pure (if ¬ isNum v then ["Invalid scoring field type: " ++ fld] else [])

/-- Validation of one entry of the `rules` list (index `i`), in source
order: missing name / type / score via Python membership (so string and
list entries are tested by substring / element equality and typically
collect all three errors), then the score-type, valid-type and
conditions checks, each of which indexes the entry and therefore raises
(`none`) on a non-dictionary entry whose membership test succeeded.
The source quotes some field names in its messages; the quotes are
dropped here. -/
def validateRule (i : Nat) (rule : Jv) : Option (List String) := do
  let hasName ← pyContains rule "name"
  let hasType ← pyContains rule "type"
  let hasScore ← pyContains rule "score"
  let displayName :=
    match rule with
    | Jv.obj f =>
      match lookupField f "name" with
      | some v => pyFormat v
      | none => toString i
    | _ => toString i
  let e1 := if ¬ hasName then ["Rule " ++ toString i ++ ": Missing name"] else []
  let e2 := if ¬ hasType then ["Rule " ++ toString i ++ ": Missing type"] else []
  let e3 := if ¬ hasScore then ["Rule " ++ toString i ++ ": Missing score"] else []
  let e4 ← if hasScore then do
      let v ← pyIndex rule "score"
      pure (if ¬ isNum v then ["Rule " ++ displayName ++ ": Invalid score type"] else [])
    else pure []
  let e5 ← if hasType then do
      let v ← pyIndex rule "type"
      pure (match v with
        | Jv.str t =>
          if ¬ valid_types.contains t then
            ["Rule " ++ displayName ++ ": Invalid type " ++ t]
          else []
        | other => ["Rule " ++ displayName ++ ": Invalid type " ++ pyFormat other])
    else pure []
  let hasCond ← pyContains rule "conditions"
  let e6 ← if hasCond then do
      let v ← pyIndex rule "conditions"
      pure (if ¬ isObj v then ["Rule " ++ displayName ++ ": Conditions must be a dict"] else [])
    else pure []
  pure (e1 ++ e2 ++ e3 ++ e4 ++ e5 ++ e6)

/-- The indexed walk over the `rules` list; the first exception aborts
the walk. -/
def validateRulesList : Nat → List Jv → Option (List String)
  | _, [] => some []
  | i, rule :: rest => do
    let e ← validateRule i rule
    let es ← validateRulesList (i + 1) rest
    pure (e ++ es)

/-- The walk over the `gates` list: only a membership test per gate, so
string and list gates are tested without raising, while numeric gates
raise. -/
def validateGates : List Jv → Option (List String)
  | [] => some []
  | gate :: rest => do
    let present ← pyContains gate "conditions"
    let es ← validateGates rest
    pure ((if ¬ present then ["Gate: Missing conditions"] else []) ++ es)

/-- Embedding of `RuleManager._validate_rules`, reduced to the list of error strings
(`valid` is its emptiness); `none` models an exception escaping the
validator, which `reload_rules` turns into a generic error status. -/
def validate_rules (rules : List (String × Jv)) : Option (List String) := do
  let sectionErrs := ["scoring", "rules", "gates"].filterMap
    (fun t => if ¬ hasKey rules t then some ("Missing required section: " ++ t) else none)
  let scoring := (lookupField rules "scoring").getD (Jv.obj [])
  let se1 ← validateScoringField scoring "base_risk"
  let se2 ← validateScoringField scoring "velocity_weight"
  let se3 ← validateScoringField scoring "behavioral_weight"
  let rulesList ← match lookupField rules "rules" with
    | none => some []
    | some v => pyIter v
  let re ← validateRulesList 0 rulesList
  let gatesList ← match lookupField rules "gates" with
    | none => some []
    | some v => pyIter v
  let ge ← validateGates gatesList
  pure (sectionErrs ++ se1 ++ se2 ++ se3 ++ re ++ ge)

/-- The `current_version` record kept by `RuleManager`. -/
structure VersionInfo where
  version : String
  hash : String
  timestamp : String
deriving DecidableEq

/-- One entry of `rule_history`. -/
structure HistoryEntry where
  rules : List (String × Jv)
  hash : String
  timestamp : String

/-- The mutable state of a `RuleManager` instance. -/
structure RMState where
  current_rules : Option (List (String × Jv))
  current_version : Option VersionInfo
  rule_history : List (String × HistoryEntry)

/-- The status dictionary returned by `RuleManager.reload_rules`,
reduced to its discriminating fields. -/
inductive ReloadResult where
  | unchanged (version : String) (hash : String)
  | validation_failed (errors : List String)
  | success (version : String) (hash : String) (timestamp : String)
  | error

/-- Embedding of `RuleManager._generate_version`: bump the patch component of the
current version, falling back to `1.0.0`. -/
def generate_version (st : RMState) : String :=
  match st.current_version with
  | none => "1.0.0"
  | some cv =>
    match cv.version.splitOn "." with
    | a :: b :: c :: _ =>
      match a.toNat?, b.toNat?, c.toNat? with
      | some major, some minor, some patch =>
        toString major ++ "." ++ toString minor ++ "." ++ toString (patch + 1)
      | _, _, _ => "1.0.0"
    | _ => "1.0.0"

/-- The tail of `RuleManager.reload_rules` after the unchanged-hash
short-circuit: validate (an exception escaping the validator hits the
generic `except Exception` branch, status `error`, before any state is
touched), then install (archiving the previous version).  Redis
distribution and the change summary are external effects the claims do
not touch. -/
def reload_apply (now : String) (raw : List (String × Jv)) (st : RMState)
    (new_hash : String) : ReloadResult × RMState :=
  match validate_rules raw with
  | none => (ReloadResult.error, st)
  | some errors =>
  if ¬ errors.isEmpty then (ReloadResult.validation_failed errors, st)
  else
    let new_version := generate_version st
    let history :=
      match st.current_version with
      | some cv => (cv.version, ⟨st.current_rules.getD [], cv.hash, cv.timestamp⟩) :: st.rule_history
      | none => st.rule_history
    (ReloadResult.success new_version new_hash now,
     { current_rules := some raw,
       current_version := some ⟨new_version, new_hash, now⟩,
       rule_history := history })

/-- Embedding of `RuleManager.reload_rules`: hash the raw document
(`sha256(json.dumps(raw, sort_keys=True))`), return `unchanged` when
the hash matches the installed version (unless forced), otherwise
validate and install. -/
def reload_rules (sha : String → String) (now : String) (raw : List (String × Jv))
    (force : Bool) (st : RMState) : ReloadResult × RMState :=
  let new_hash := sha (dumps (Jv.obj raw))
  match st.current_version with
  | some cv =>
    if ¬ force && new_hash == cv.hash then (ReloadResult.unchanged cv.version new_hash, st)
    else reload_apply now raw st new_hash
  | none => reload_apply now raw st new_hash

/-- Embedding of `RuleManager.get_rules` (`self.current_rules or {}`). -/
def get_rules (st : RMState) : List (String × Jv) :=
  st.current_rules.getD []

/-- Embedding of `RuleManager.get_rule_version`. -/
def get_rule_version (st : RMState) : Option String :=
  st.current_version.map (fun cv => cv.version)

end RuleManager

namespace ShadowMode

/-- One row of `shadow_mode_results`, with the fields
`ShadowModeService.label_result` touches. -/
structure ShadowModeResult where
  id : String
  would_have_blocked : Bool
  actual_fraud : Option Bool
  labeled_at : Option String
  labeled_by_user_id : Option String
deriving DecidableEq

/-- The update `label_result` performs on the row it found. -/
def applyLabel (r : ShadowModeResult) (actual_fraud : Bool) (analyst_id : String)
    (now : String) : ShadowModeResult :=
  { r with actual_fraud := some actual_fraud,
           labeled_at := some now,
           labeled_by_user_id := some analyst_id }

/-- Embedding of `ShadowModeService.label_result`: find the first row with the given
id; if absent return `none` and leave the table unchanged; otherwise
overwrite `actual_fraud`, `labeled_at` and `labeled_by_user_id`
unconditionally and return the updated row.  There is no check that the
row was already labeled. -/
def label_result : List ShadowModeResult → String → Bool → String → String →
    Option ShadowModeResult × List ShadowModeResult
  | [], _, _, _, _ => (none, [])
  | r :: rest, result_id, actual_fraud, analyst_id, now =>
    if r.id == result_id then
      let updated := applyLabel r actual_fraud analyst_id now
      (some updated, updated :: rest)
    else
      let (res, rest1) := label_result rest result_id actual_fraud analyst_id now
      (res, r :: rest1)

end ShadowMode

namespace Outbox

/-- One row of the `outbox` table, with the fields the poller query
reads. -/
structure OutboxRec where
  id : String
  status : String
  created_at : Nat
deriving DecidableEq

/-- Embedding of `OutboxPoller.BATCH_SIZE`. -/
def BATCH_SIZE : Nat := 100

/-- Embedding of `OutboxPoller._get_pending_events`:
`select(Outbox).where(status == "pending").limit(limit)` — a filter on
status and a limit, with no `order_by`; the table is modelled as the
list of rows in storage order. -/
def get_pending_events (tbl : List OutboxRec) (limit : Nat) : List OutboxRec :=
  (tbl.filter (fun r => r.status == "pending")).take limit

/-- The fetch step of `OutboxPoller._poll_cycle`
(`self._get_pending_events(limit=self.BATCH_SIZE)`). -/
def poll_fetch (tbl : List OutboxRec) : List OutboxRec :=
  get_pending_events tbl BATCH_SIZE

end Outbox

/-! Concrete instances used to exercise the definitions above on the
scenarios of the specification. -/

/-- A concrete stand-in for SHA-256: the claims need only that distinct
inputs hash to distinct outputs, which this trivially injective function
provides. -/
def shaModel : String → String := fun s => "sha256:" ++ s

/-- An audit chain with one entry (actor alice); the hashed timestamp
`t1h` precedes the stored timestamp `t1s`, as in the source. -/
def chainA : List CryptoAudit.AuditLogEntry :=
  CryptoAudit.log_event shaModel [] (some "alice") "rule_updated"
    [("amount", Jv.num 1)] "t1h" "t1s"

/-- The chain `A, B` of the tampering scenario. -/
def chainAB : List CryptoAudit.AuditLogEntry :=
  CryptoAudit.log_event shaModel chainA (some "bob") "rule_deleted"
    [("amount", Jv.num 2)] "t2h" "t2s"

/-- Chain `chainAB` with the stored payload of entry `A` overwritten. -/
def tamperedAB : List CryptoAudit.AuditLogEntry :=
  CryptoAudit.tamper_payload chainAB 0 [("amount", Jv.num 999)]

/-- The default thresholds of `_determine_action`. -/
def thDefault : RiskEngine.Thresholds := ⟨3/10, 6/10, 8/10⟩

/-- Empty Redis state. -/
def envEmpty : RiskEngine.RedisEnv := ⟨none, 0, false, 0⟩

/-- Redis state whose cached location for the user is `(0, 0)`. -/
def envAtOrigin : RiskEngine.RedisEnv := ⟨some (0, 0), 0, false, 0⟩

/-- A transaction event from the US. -/
def eventTxn : RiskEngine.SentinelEvent :=
  ⟨"ev1", "transaction.attempted", ⟨"u1", "dev1"⟩, ⟨0, 0, some "US"⟩⟩

/-- A transaction event from a sanctioned region. -/
def eventSanctioned : RiskEngine.SentinelEvent :=
  ⟨"ev2", "transaction.attempted", ⟨"u1", "dev1"⟩, ⟨0, 0, some "IR"⟩⟩

/-- A login whose location `(0, 180)` is antipodal to the cached
`(0, 0)`. -/
def eventLoginAntipode : RiskEngine.SentinelEvent :=
  ⟨"ev3", "authentication.login", ⟨"u1", "dev1"⟩, ⟨0, 180, some "US"⟩⟩

/-- A behavioral rule that matches every event, score `0.5`. -/
def ruleBehavioral : RiskEngine.Rule := ⟨"odd_hours", true, none, none, some (1/2)⟩

/-- A hard rule gating sanctioned regions, score `0.9`. -/
def ruleHard : RiskEngine.Rule :=
  ⟨"sanctioned_region", true, none, some ["IR", "KP"], some (9/10)⟩

/-- A configuration with one hard rule and one behavioral rule. -/
def cfgHard : RiskEngine.RulesConfig :=
  ⟨[ruleHard], [], [ruleBehavioral], [], thDefault⟩

/-- A configuration with no velocity rules and one behavioral rule. -/
def cfgBehavioralOnly : RiskEngine.RulesConfig :=
  ⟨[], [], [ruleBehavioral], [], thDefault⟩

/-- A rule document whose single rule lacks its `score` field. -/
def rawMissingScore : List (String × Jv) :=
  [("scoring", Jv.obj [("base_risk", Jv.num (1/10)),
                       ("velocity_weight", Jv.num (2/5)),
                       ("behavioral_weight", Jv.num (3/10))]),
   ("rules", Jv.arr [Jv.obj [("name", Jv.str "r1"), ("type", Jv.str "hard")]]),
   ("gates", Jv.arr [])]

/-- A rule-manager state with an installed version `1.0.0`. -/
def rmPrior : RuleManager.RMState :=
  { current_rules := some [("scoring", Jv.obj [])],
    current_version := some ⟨"1.0.0", "oldhash", "t0"⟩,
    rule_history := [] }

/-- A shadow result already labeled by analyst `a1`. -/
def labeledRow : ShadowMode.ShadowModeResult :=
  ⟨"s1", true, some true, some "t1", some "a1"⟩

/-- An outbox row created later than `obEarly` but stored first. -/
def obLate : Outbox.OutboxRec := ⟨"e1", "pending", 10⟩

/-- An outbox row created earlier than `obLate` but stored second. -/
def obEarly : Outbox.OutboxRec := ⟨"e2", "pending", 5⟩

/-- An outbox table whose pending rows are not in `created_at` order. -/
def obTbl : List Outbox.OutboxRec := [obLate, obEarly]

namespace CryptoAudit

mutual
/-- Scrubbing an already-scrubbed dictionary changes nothing. -/
theorem scrub_payload_idem : ∀ f, scrub_payload (scrub_payload f) = scrub_payload f
  | [] => rfl
  | (k, v) :: rest => by
    cases hk : isSensitiveKey k with
    | true => simp [scrub_payload, hk, scrub_payload_idem rest]
    | false => simp [scrub_payload, hk, scrubValue_idem v, scrub_payload_idem rest]

theorem scrubValue_idem : ∀ v, scrubValue (scrubValue v) = scrubValue v
  | Jv.str _ => rfl
  | Jv.num _ => rfl
  | Jv.bool _ => rfl
  | Jv.null => rfl
  | Jv.obj f => by simp [scrubValue, scrub_payload_idem f]
  | Jv.arr l => by simp [scrubValue, scrubList_idem l]

theorem scrubList_idem : ∀ l, scrubList (scrubList l) = scrubList l
  | [] => rfl
  | Jv.obj f :: rest => by simp [scrubList, scrub_payload_idem f, scrubList_idem rest]
  | Jv.str _ :: rest => by simp [scrubList, scrubList_idem rest]
  | Jv.num _ :: rest => by simp [scrubList, scrubList_idem rest]
  | Jv.bool _ :: rest => by simp [scrubList, scrubList_idem rest]
  | Jv.null :: rest => by simp [scrubList, scrubList_idem rest]
  | Jv.arr _ :: rest => by simp [scrubList, scrubList_idem rest]
end

mutual
/-- Reflexivity of `onlyRedacts`. -/
theorem onlyRedacts_refl : ∀ v, onlyRedacts v v = true
  | Jv.str _ => by simp [onlyRedacts, beqJv]
  | Jv.num _ => by simp [onlyRedacts, beqJv]
  | Jv.bool _ => by simp [onlyRedacts, beqJv]
  | Jv.null => by simp [onlyRedacts, beqJv]
  | Jv.obj f => by simp [onlyRedacts, onlyRedactsFields_refl f]
  | Jv.arr l => by simp [onlyRedacts, onlyRedactsArr_refl l]

theorem onlyRedactsFields_refl : ∀ f, onlyRedactsFields f f = true
  | [] => rfl
  | (k, v) :: rest => by
    simp [onlyRedactsFields, onlyRedacts_refl v, onlyRedactsFields_refl rest]

theorem onlyRedactsArr_refl : ∀ l, onlyRedactsArr l l = true
  | [] => rfl
  | v :: rest => by simp [onlyRedactsArr, onlyRedacts_refl v, onlyRedactsArr_refl rest]
end

mutual
/-- The scrubber only redacts: it preserves every key (name and order)
at every nesting level, replacing only values of sensitive-named
fields. -/
theorem scrub_payload_onlyRedacts :
    ∀ f, onlyRedactsFields f (scrub_payload f) = true
  | [] => rfl
  | (k, v) :: rest => by
    cases hk : isSensitiveKey k with
    | true =>
      simp [scrub_payload, onlyRedactsFields, hk, beqJv, redactedMarker,
        scrub_payload_onlyRedacts rest]
    | false =>
      simp [scrub_payload, onlyRedactsFields, hk, scrubValue_onlyRedacts v,
        scrub_payload_onlyRedacts rest]

theorem scrubValue_onlyRedacts : ∀ v, onlyRedacts v (scrubValue v) = true
  | Jv.str _ => by simp [scrubValue, onlyRedacts, beqJv]
  | Jv.num _ => by simp [scrubValue, onlyRedacts, beqJv]
  | Jv.bool _ => by simp [scrubValue, onlyRedacts, beqJv]
  | Jv.null => by simp [scrubValue, onlyRedacts, beqJv]
  | Jv.obj f => by simp [scrubValue, onlyRedacts, scrub_payload_onlyRedacts f]
  | Jv.arr l => by simp [scrubValue, onlyRedacts, scrubList_onlyRedacts l]

theorem scrubList_onlyRedacts : ∀ l, onlyRedactsArr l (scrubList l) = true
  | [] => rfl
  | Jv.obj f :: rest => by
    simp [scrubList, onlyRedactsArr, onlyRedacts, scrub_payload_onlyRedacts f,
      scrubList_onlyRedacts rest]
  | Jv.str _ :: rest => by
    simp [scrubList, onlyRedactsArr, onlyRedacts, beqJv, scrubList_onlyRedacts rest]
  | Jv.num _ :: rest => by
    simp [scrubList, onlyRedactsArr, onlyRedacts, beqJv, scrubList_onlyRedacts rest]
  | Jv.bool _ :: rest => by
    simp [scrubList, onlyRedactsArr, onlyRedacts, beqJv, scrubList_onlyRedacts rest]
  | Jv.null :: rest => by
    simp [scrubList, onlyRedactsArr, onlyRedacts, beqJv, scrubList_onlyRedacts rest]
  | Jv.arr xs :: rest => by
    simp [scrubList, onlyRedactsArr, onlyRedacts, onlyRedactsArr_refl xs,
      scrubList_onlyRedacts rest]
end

mutual
/-- After scrubbing, every sensitive-named field in the reachable region
holds the redaction marker. -/
theorem scrub_payload_scrubbedOk :
    ∀ f, scrubbedFieldsOk (scrub_payload f) = true
  | [] => rfl
  | (k, v) :: rest => by
    cases hk : isSensitiveKey k with
    | true =>
      simp [scrub_payload, scrubbedFieldsOk, hk, beqJv, redactedMarker,
        scrub_payload_scrubbedOk rest]
    | false =>
      simp [scrub_payload, scrubbedFieldsOk, hk, scrubValue_scrubbedOk v,
        scrub_payload_scrubbedOk rest]

theorem scrubValue_scrubbedOk : ∀ v, scrubbedValueOk (scrubValue v) = true
  | Jv.str _ => rfl
  | Jv.num _ => rfl
  | Jv.bool _ => rfl
  | Jv.null => rfl
  | Jv.obj f => by simp [scrubValue, scrubbedValueOk, scrub_payload_scrubbedOk f]
  | Jv.arr l => by simp [scrubValue, scrubbedValueOk, scrubList_scrubbedOk l]

theorem scrubList_scrubbedOk : ∀ l, scrubbedArrOk (scrubList l) = true
  | [] => rfl
  | Jv.obj f :: rest => by
    simp [scrubList, scrubbedArrOk, scrub_payload_scrubbedOk f, scrubList_scrubbedOk rest]
  | Jv.str _ :: rest => by simp [scrubList, scrubbedArrOk, scrubList_scrubbedOk rest]
  | Jv.num _ :: rest => by simp [scrubList, scrubbedArrOk, scrubList_scrubbedOk rest]
  | Jv.bool _ :: rest => by simp [scrubList, scrubbedArrOk, scrubList_scrubbedOk rest]
  | Jv.null :: rest => by simp [scrubList, scrubbedArrOk, scrubList_scrubbedOk rest]
  | Jv.arr _ :: rest => by simp [scrubList, scrubbedArrOk, scrubList_scrubbedOk rest]
end

end CryptoAudit

/-- Claim C10: the audit payload scrubber is idempotent, and it never
adds, removes or renames keys at any nesting level — it only replaces
values of sensitive-named fields with the redaction marker. -/
theorem C10_scrub_idempotent_only_redacts (p : List (String × Jv)) :
    CryptoAudit.scrub_payload (CryptoAudit.scrub_payload p) = CryptoAudit.scrub_payload p
    ∧ CryptoAudit.onlyRedactsFields p (CryptoAudit.scrub_payload p) = true :=
  ⟨CryptoAudit.scrub_payload_idem p, CryptoAudit.scrub_payload_onlyRedacts p⟩

/-- Claim C6, counterexample: a field named `token` — which the claim
lists among the sensitive substrings — is stored by `log_event`
unredacted, because `token` is not in the sensitive set of
`_scrub_payload`. -/
theorem C6_counterexample :
    (CryptoAudit.log_event shaModel [] (some "alice") "evt"
        [("token", Jv.str "tok-123")] "t0h" "t0s").map (fun e => e.payload_json)
      = [[("token", Jv.str "tok-123")]]
    ∧ ("tok-123" : String) ≠ "[REDACTED]"
    ∧ strContains (lowerStr "token") "token" = true :=
  ⟨rfl, by decide, by decide⟩

/-- Claim C6, amended: `log_event` appends exactly one entry whose
stored payload is the scrubbed payload, in which every field whose name
contains one of the substrings password, secret, api_key, credit_card,
cvv, ssn, email, phone, account_number, iban (`token` is not in the
set) is redacted, recursively through nested maps and through the map
elements of lists. -/
theorem C6_append_stores_scrubbed_payload (sha : String → String)
    (logs : List CryptoAudit.AuditLogEntry) (actor_id : Option String)
    (event_type : String) (payload : List (String × Jv)) (ts_hash ts_store : String) :
    ∃ entry, CryptoAudit.log_event sha logs actor_id event_type payload ts_hash ts_store
        = logs ++ [entry]
      ∧ entry.payload_json = CryptoAudit.scrub_payload payload
      ∧ CryptoAudit.scrubbedFieldsOk entry.payload_json = true :=
  ⟨_, rfl, rfl, CryptoAudit.scrub_payload_scrubbedOk payload⟩

/-- Claim C9, counterexample: the poller fetch keeps the storage order
of the table — there is no `order_by(created_at)` in the query — so a
table whose pending rows are stored newest-first yields a batch that is
not sorted by `created_at`. -/
theorem C9_counterexample :
    Outbox.poll_fetch obTbl = [obLate, obEarly]
    ∧ obLate.created_at = 10 ∧ obEarly.created_at = 5
    ∧ ¬ List.Pairwise (fun a b : Outbox.OutboxRec => a.created_at ≤ b.created_at)
        (Outbox.poll_fetch obTbl) := by
  refine ⟨rfl, rfl, rfl, fun hp => ?_⟩
  rw [show Outbox.poll_fetch obTbl = [obLate, obEarly] from rfl] at hp
  simp [obLate, obEarly, List.pairwise_cons] at hp

/-- Claim C9, amended: every poll-cycle batch consists of at most 100
rows, all with status `pending`, in table storage order (a sublist of
the table); no `created_at` ordering is applied. -/
theorem C9_poll_fetch_pending_limited (tbl : List Outbox.OutboxRec) :
    (Outbox.poll_fetch tbl).length ≤ Outbox.BATCH_SIZE
    ∧ (∀ r ∈ Outbox.poll_fetch tbl, r.status = "pending")
    ∧ (Outbox.poll_fetch tbl).Sublist tbl := by
  refine ⟨?_, ?_, ?_⟩
  · exact List.length_take_le _ _
  · intro r hr
    have h1 : r ∈ tbl.filter (fun x => x.status == "pending") := List.mem_of_mem_take hr
    have h2 := (List.mem_filter.mp h1).2
    simpa using h2
  · exact (List.take_sublist _ _).trans (List.filter_sublist _)

/-- Claim C8, counterexample: re-labeling an already-labeled shadow
result does not fail — `label_result` has no conflict check — and it
overwrites the stored label, `labeled_at` and `labeled_by_user_id`. -/
theorem C8_counterexample :
    (ShadowMode.label_result [labeledRow] "s1" false "a2" "t2").1
      = some ⟨"s1", true, some false, some "t2", some "a2"⟩
    ∧ (ShadowMode.label_result [labeledRow] "s1" false "a2" "t2").2
      = [⟨"s1", true, some false, some "t2", some "a2"⟩]
    ∧ labeledRow.actual_fraud = some true
    ∧ (some false : Option Bool) ≠ some true := by
  refine ⟨rfl, rfl, rfl, by decide⟩

/-- Claim C8, amended: a second labeling attempt on an existing shadow
result succeeds and overwrites `actual_fraud`, `labeled_at` and
`labeled_by_user_id`; `actual_fraud` is set to the given Boolean, so a
label can be changed but never unset. -/
theorem C8_relabel_overwrites (tbl : List ShadowMode.ShadowModeResult)
    (result_id : String) (fraud : Bool) (analyst now : String)
    (r : ShadowMode.ShadowModeResult)
    (hfind : tbl.find? (fun x => x.id == result_id) = some r) :
    (ShadowMode.label_result tbl result_id fraud analyst now).1
      = some (ShadowMode.applyLabel r fraud analyst now)
    ∧ ((ShadowMode.label_result tbl result_id fraud analyst now).2.find?
        (fun x => x.id == result_id) = some (ShadowMode.applyLabel r fraud analyst now))
    ∧ (ShadowMode.applyLabel r fraud analyst now).actual_fraud = some fraud := by
  induction tbl with
  | nil => simp [List.find?] at hfind
  | cons r0 rest ih =>
    by_cases h0 : (r0.id == result_id) = true
    · simp only [List.find?, h0] at hfind
      obtain rfl : r0 = r := Option.some.inj hfind
      refine ⟨?_, ?_, rfl⟩
      · simp [ShadowMode.label_result, h0]
      · have hid : ((ShadowMode.applyLabel r0 fraud analyst now).id == result_id) = true := h0
        simp [ShadowMode.label_result, h0, List.find?, hid]
    · simp only [List.find?, h0, Bool.false_eq_true, cond_false] at hfind
      obtain ⟨ih1, ih2, ih3⟩ := ih hfind
      refine ⟨?_, ?_, rfl⟩
      · simpa [ShadowMode.label_result, h0] using ih1
      · simp only [ShadowMode.label_result, h0]
        simpa [List.find?, h0] using ih2

/-- Claim C8, witness for the amended theorem at a concrete labeled
row. -/
theorem C8_relabel_overwrites_witness :
    ([labeledRow].find? (fun x => x.id == "s1") = some labeledRow)
    ∧ ((ShadowMode.label_result [labeledRow] "s1" false "a2" "t2").1
        = some (ShadowMode.applyLabel labeledRow false "a2" "t2")
      ∧ ((ShadowMode.label_result [labeledRow] "s1" false "a2" "t2").2.find?
          (fun x => x.id == "s1") = some (ShadowMode.applyLabel labeledRow false "a2" "t2"))
      ∧ (ShadowMode.applyLabel labeledRow false "a2" "t2").actual_fraud = some false) :=
  ⟨by decide, C8_relabel_overwrites [labeledRow] "s1" false "a2" "t2" labeledRow (by decide)⟩

/-- Claim C4: with thresholds `review ≤ challenge ≤ block`, the
level/action mapping returns (low, allow) below `review`,
(medium, review) on `[review, challenge)`, (high, challenge) on
`[challenge, block)` and (critical, block) from `block` on; in
particular the boundary scores `review` (when the interval is
non-empty) and `block` map to review and block. -/
theorem C4_determine_action_mapping (t : RiskEngine.Thresholds) (s : ℚ)
    (h1 : t.review ≤ t.challenge) (h2 : t.challenge ≤ t.block) :
    (s < t.review → RiskEngine.determine_action t s = ("low", "allow"))
    ∧ (t.review ≤ s → s < t.challenge →
        RiskEngine.determine_action t s = ("medium", "review"))
    ∧ (t.challenge ≤ s → s < t.block →
        RiskEngine.determine_action t s = ("high", "challenge"))
    ∧ (t.block ≤ s → RiskEngine.determine_action t s = ("critical", "block"))
    ∧ (t.review < t.challenge →
        RiskEngine.determine_action t t.review = ("medium", "review"))
    ∧ RiskEngine.determine_action t t.block = ("critical", "block") := by
  unfold RiskEngine.determine_action
  refine ⟨?_, ?_, ?_, ?_, ?_, ?_⟩
  · intro h
    rw [if_pos h]
  · intro ha hb
    rw [if_neg (by linarith), if_pos hb]
  · intro ha hb
    rw [if_neg (by linarith), if_neg (by linarith), if_pos hb]
  · intro h
    rw [if_neg (by linarith), if_neg (by linarith), if_neg (by linarith)]
  · intro h
    rw [if_neg (by linarith), if_pos h]
  · rw [if_neg (by linarith), if_neg (by linarith), if_neg (by linarith)]

/-- Claim C4, witness at the default thresholds and a sample score. -/
theorem C4_determine_action_mapping_witness :
    (thDefault.review ≤ thDefault.challenge) ∧ (thDefault.challenge ≤ thDefault.block)
    ∧ (((1 : ℚ)/2 < thDefault.review →
        RiskEngine.determine_action thDefault (1/2) = ("low", "allow"))
      ∧ (thDefault.review ≤ 1/2 → (1 : ℚ)/2 < thDefault.challenge →
          RiskEngine.determine_action thDefault (1/2) = ("medium", "review"))
      ∧ (thDefault.challenge ≤ 1/2 → (1 : ℚ)/2 < thDefault.block →
          RiskEngine.determine_action thDefault (1/2) = ("high", "challenge"))
      ∧ (thDefault.block ≤ 1/2 →
          RiskEngine.determine_action thDefault (1/2) = ("critical", "block"))
      ∧ (thDefault.review < thDefault.challenge →
          RiskEngine.determine_action thDefault thDefault.review = ("medium", "review"))
      ∧ RiskEngine.determine_action thDefault thDefault.block = ("critical", "block")) :=
  ⟨by norm_num [thDefault], by norm_num [thDefault],
   C4_determine_action_mapping thDefault (1/2) (by norm_num [thDefault])
     (by norm_num [thDefault])⟩

/-- Claim C7: when validation of the new rule document fails, reloading
returns the `validation_failed` status carrying the list of issues and
leaves the installed rules, version and history untouched, so
subsequent reads return the prior rules and prior version.  The
hypothesis `hnc` says the reload is not short-circuited by an unchanged
hash (forced, no installed version, or a differing hash). -/
theorem C7_reload_validation_failure_preserves_state (sha : String → String)
    (now : String) (raw : List (String × Jv)) (force : Bool) (st : RuleManager.RMState)
    (errs : List String)
    (hv : RuleManager.validate_rules raw = some errs) (hne : errs ≠ [])
    (hnc : ∀ cv ∈ st.current_version,
      force = true ∨ sha (CryptoAudit.dumps (Jv.obj raw)) ≠ cv.hash) :
    RuleManager.reload_rules sha now raw force st
      = (RuleManager.ReloadResult.validation_failed errs, st)
    ∧ RuleManager.get_rules (RuleManager.reload_rules sha now raw force st).2
      = RuleManager.get_rules st
    ∧ RuleManager.get_rule_version (RuleManager.reload_rules sha now raw force st).2
      = RuleManager.get_rule_version st := by
  have happly : RuleManager.reload_apply now raw st (sha (CryptoAudit.dumps (Jv.obj raw)))
      = (RuleManager.ReloadResult.validation_failed errs, st) := by
    unfold RuleManager.reload_apply
    rw [hv]
    have hef : errs.isEmpty = false := by
      rw [Bool.eq_false_iff, Ne, List.isEmpty_iff]
      exact hne
    simp [hef]
  have hmain : RuleManager.reload_rules sha now raw force st
      = (RuleManager.ReloadResult.validation_failed errs, st) := by
    cases hcv : st.current_version with
    | none => simp [RuleManager.reload_rules, hcv, happly]
    | some cv =>
      rcases hnc cv (by simp [hcv]) with hf | hh
      · subst hf
        simp [RuleManager.reload_rules, hcv, happly]
      · simp [RuleManager.reload_rules, hcv, hh, happly]
  exact ⟨hmain, by rw [hmain], by rw [hmain]⟩

/-- Claim C7, witness: reloading a document whose rule lacks `score`
over an installed version with a different hash. -/
theorem C7_reload_validation_failure_witness :
    (RuleManager.validate_rules rawMissingScore = some ["Rule 0: Missing score"])
    ∧ (["Rule 0: Missing score"] ≠ ([] : List String))
    ∧ (∀ cv ∈ rmPrior.current_version,
        false = true ∨ shaModel (CryptoAudit.dumps (Jv.obj rawMissingScore)) ≠ cv.hash)
    ∧ (RuleManager.reload_rules shaModel "t1" rawMissingScore false rmPrior
        = (RuleManager.ReloadResult.validation_failed ["Rule 0: Missing score"], rmPrior)
      ∧ RuleManager.get_rules (RuleManager.reload_rules shaModel "t1" rawMissingScore false rmPrior).2
        = RuleManager.get_rules rmPrior
      ∧ RuleManager.get_rule_version
          (RuleManager.reload_rules shaModel "t1" rawMissingScore false rmPrior).2
        = RuleManager.get_rule_version rmPrior) := by
  have h1 : RuleManager.validate_rules rawMissingScore = some ["Rule 0: Missing score"] := by
    decide
  have hne : ["Rule 0: Missing score"] ≠ ([] : List String) := by decide
  have h2 : ∀ cv ∈ rmPrior.current_version,
      false = true ∨ shaModel (CryptoAudit.dumps (Jv.obj rawMissingScore)) ≠ cv.hash := by
    intro cv hcv
    right
    simp only [rmPrior, Option.mem_def, Option.some.injEq] at hcv
    subst hcv
    decide
  exact ⟨h1, hne, h2,
    C7_reload_validation_failure_preserves_state shaModel "t1" rawMissingScore false rmPrior
      ["Rule 0: Missing score"] h1 hne h2⟩

namespace RiskEngine

/-- The hard-gate branch of `evaluate_event`: when the hard category
triggered, the result is the short-circuit block decision and the trace
records that no later category ran. -/
theorem evaluate_event_of_hard_triggered (cfg : RulesConfig) (env : RedisEnv)
    (event : SentinelEvent)
    (hi : (evaluate_hard_rules cfg.hard_rules event).triggered.isEmpty = false) :
    evaluate_event cfg env event
      = ({ event_id := event.event_id, user_id := event.actor.user_id,
           risk_score := list_max (evaluate_hard_rules cfg.hard_rules event).scores,
           risk_level := "critical",
           hard_rules_triggered := (evaluate_hard_rules cfg.hard_rules event).triggered,
           velocity_alerts := [], behavioral_flags := [],
           recommended_action := "block", confidence := 1,
           triggered_rules := (evaluate_hard_rules cfg.hard_rules event).triggered },
         ⟨false, false, false⟩) := by
  simp only [evaluate_event]
  rw [hi]
  simp

end RiskEngine

/-- Claim C1: when at least one enabled hard rule matches,
`evaluate_event` returns risk_score = max of the matched rules scores
(default 0.5 per rule), level critical, action block, confidence 1.0;
the evaluation trace records that velocity, behavioral and combination
rules were not evaluated, and the decision is independent of those
configuration sections. -/
theorem C1_hard_gate_short_circuit (cfg : RiskEngine.RulesConfig)
    (env : RiskEngine.RedisEnv) (event : RiskEngine.SentinelEvent)
    (h : ∃ r ∈ cfg.hard_rules, r.enabled = true ∧ RiskEngine.match_rule event r = true) :
    (RiskEngine.evaluate_event cfg env event).1.risk_score
      = RiskEngine.list_max ((cfg.hard_rules.filter
          (fun r => r.enabled && RiskEngine.match_rule event r)).map
          (fun r => r.risk_score.getD (1/2)))
    ∧ (RiskEngine.evaluate_event cfg env event).1.risk_level = "critical"
    ∧ (RiskEngine.evaluate_event cfg env event).1.recommended_action = "block"
    ∧ (RiskEngine.evaluate_event cfg env event).1.confidence = 1
    ∧ (RiskEngine.evaluate_event cfg env event).2 = ⟨false, false, false⟩
    ∧ (∀ v b c, RiskEngine.evaluate_event
        { cfg with velocity_checks := v, behavioral_rules := b, rule_combinations := c }
        env event = RiskEngine.evaluate_event cfg env event) := by
  obtain ⟨r, hr, hen, hm⟩ := h
  have hmem : r ∈ cfg.hard_rules.filter (fun x => x.enabled && RiskEngine.match_rule event x) :=
    List.mem_filter.mpr ⟨hr, by rw [hen, hm]; rfl⟩
  have hfne : cfg.hard_rules.filter (fun x => x.enabled && RiskEngine.match_rule event x) ≠ [] :=
    List.ne_nil_of_mem hmem
  have hempty : (RiskEngine.evaluate_hard_rules cfg.hard_rules event).triggered.isEmpty = false := by
    rw [Bool.eq_false_iff, Ne, List.isEmpty_iff]
    simpa [RiskEngine.evaluate_hard_rules] using hfne
  have heval := RiskEngine.evaluate_event_of_hard_triggered cfg env event hempty
  refine ⟨?_, ?_, ?_, ?_, ?_, ?_⟩
  · rw [heval]
    simp [RiskEngine.evaluate_hard_rules]
  · rw [heval]
  · rw [heval]
  · rw [heval]
  · rw [heval]
  · intro v b c
    exact (RiskEngine.evaluate_event_of_hard_triggered
      { cfg with velocity_checks := v, behavioral_rules := b, rule_combinations := c }
      env event hempty).trans heval.symm

/-- Claim C1, witness: a transaction from a sanctioned region matching
the hard gate of `cfgHard`. -/
theorem C1_hard_gate_short_circuit_witness :
    (∃ r ∈ cfgHard.hard_rules, r.enabled = true ∧ RiskEngine.match_rule eventSanctioned r = true)
    ∧ ((RiskEngine.evaluate_event cfgHard envEmpty eventSanctioned).1.risk_score
        = RiskEngine.list_max ((cfgHard.hard_rules.filter
            (fun r => r.enabled && RiskEngine.match_rule eventSanctioned r)).map
            (fun r => r.risk_score.getD (1/2)))
      ∧ (RiskEngine.evaluate_event cfgHard envEmpty eventSanctioned).1.risk_level = "critical"
      ∧ (RiskEngine.evaluate_event cfgHard envEmpty eventSanctioned).1.recommended_action = "block"
      ∧ (RiskEngine.evaluate_event cfgHard envEmpty eventSanctioned).1.confidence = 1
      ∧ (RiskEngine.evaluate_event cfgHard envEmpty eventSanctioned).2 = ⟨false, false, false⟩
      ∧ (∀ v b c, RiskEngine.evaluate_event
          { cfgHard with velocity_checks := v, behavioral_rules := b, rule_combinations := c }
          envEmpty eventSanctioned = RiskEngine.evaluate_event cfgHard envEmpty eventSanctioned)) :=
  ⟨by decide, C1_hard_gate_short_circuit cfgHard envEmpty eventSanctioned (by decide)⟩

/-- Claim C3, counterexample: with no velocity score and a behavioral
maximum of 0.5, the pre-combination running score is 0.15 — the blend
`0.7 × 0 + 0.3 × 0.5` — not the non-zero category score 0.5 the claim
requires. -/
theorem C3_counterexample :
    (RiskEngine.evaluate_velocity_checks envEmpty eventTxn
        cfgBehavioralOnly.velocity_checks).1.triggered = []
    ∧ RiskEngine.list_max (RiskEngine.evaluate_behavioral_rules
        cfgBehavioralOnly.behavioral_rules eventTxn).scores = 1/2
    ∧ RiskEngine.score_after_behavioral cfgBehavioralOnly envEmpty eventTxn = 3/20
    ∧ ((3 : ℚ)/20 ≠ 1/2) := by
  refine ⟨rfl, ?_, ?_, by norm_num⟩
  · simp [RiskEngine.evaluate_behavioral_rules, RiskEngine.match_rule, RiskEngine.list_max,
      cfgBehavioralOnly, ruleBehavioral]
  · simp [RiskEngine.score_after_behavioral, RiskEngine.score_after_velocity,
      RiskEngine.evaluate_velocity_checks, RiskEngine.evaluate_behavioral_rules,
      RiskEngine.match_rule, RiskEngine.list_max, cfgBehavioralOnly, ruleBehavioral]
    norm_num

/-- Claim C3, amended: whenever the behavioral category triggers, the
running score becomes the blend `0.7 × score_so_far + 0.3 ×
behavioral_max` regardless of the velocity outcome; in particular, when
the velocity stage contributed a zero (or no) score, the
pre-combination score is `0.3 × behavioral_max`, not `behavioral_max`. -/
theorem C3_blend_applied_whenever_behavioral (cfg : RiskEngine.RulesConfig)
    (env : RiskEngine.RedisEnv) (event : RiskEngine.SentinelEvent)
    (hb : (RiskEngine.evaluate_behavioral_rules cfg.behavioral_rules event).triggered ≠ []) :
    RiskEngine.score_after_behavioral cfg env event
      = RiskEngine.score_after_velocity cfg env event * (7/10)
        + RiskEngine.list_max (RiskEngine.evaluate_behavioral_rules
            cfg.behavioral_rules event).scores * (3/10)
    ∧ (RiskEngine.score_after_velocity cfg env event = 0 →
        RiskEngine.score_after_behavioral cfg env event
          = RiskEngine.list_max (RiskEngine.evaluate_behavioral_rules
              cfg.behavioral_rules event).scores * (3/10)) := by
  have hmne : cfg.behavioral_rules.filter
      (fun x => x.enabled && RiskEngine.match_rule event x) ≠ [] := by
    intro hc
    exact hb (by simp [RiskEngine.evaluate_behavioral_rules, hc])
  have hbe : (RiskEngine.evaluate_behavioral_rules
      cfg.behavioral_rules event).triggered.isEmpty = false := by
    rw [Bool.eq_false_iff, Ne, List.isEmpty_iff]
    exact hb
  have hse : (RiskEngine.evaluate_behavioral_rules
      cfg.behavioral_rules event).scores.isEmpty = false := by
    rw [Bool.eq_false_iff, Ne, List.isEmpty_iff]
    simpa [RiskEngine.evaluate_behavioral_rules] using hmne
  have key : RiskEngine.score_after_behavioral cfg env event
      = RiskEngine.score_after_velocity cfg env event * (7/10)
        + RiskEngine.list_max (RiskEngine.evaluate_behavioral_rules
            cfg.behavioral_rules event).scores * (3/10) := by
    simp only [RiskEngine.score_after_behavioral]
    rw [hbe, hse]
    simp
  refine ⟨key, fun h0 => ?_⟩
  rw [key, h0]
  ring

/-- Claim C3, witness for the amended theorem: no velocity rules, one
always-matching behavioral rule. -/
theorem C3_blend_applied_witness :
    ((RiskEngine.evaluate_behavioral_rules cfgBehavioralOnly.behavioral_rules
        eventTxn).triggered ≠ [])
    ∧ (RiskEngine.score_after_behavioral cfgBehavioralOnly envEmpty eventTxn
        = RiskEngine.score_after_velocity cfgBehavioralOnly envEmpty eventTxn * (7/10)
          + RiskEngine.list_max (RiskEngine.evaluate_behavioral_rules
              cfgBehavioralOnly.behavioral_rules eventTxn).scores * (3/10)
      ∧ (RiskEngine.score_after_velocity cfgBehavioralOnly envEmpty eventTxn = 0 →
          RiskEngine.score_after_behavioral cfgBehavioralOnly envEmpty eventTxn
            = RiskEngine.list_max (RiskEngine.evaluate_behavioral_rules
                cfgBehavioralOnly.behavioral_rules eventTxn).scores * (3/10))) :=
  ⟨by decide, C3_blend_applied_whenever_behavioral cfgBehavioralOnly envEmpty eventTxn (by decide)⟩

/-- Embedding of `math.atan2(1, 0) = π/2` (helper for the antipodal distance). -/
theorem atan2_one_zero : RiskEngine.atan2 1 0 = Real.pi / 2 := by
  unfold RiskEngine.atan2
  rw [if_neg (lt_irrefl (0:ℝ)), if_neg (lt_irrefl (0:ℝ)), if_pos (one_pos)]

/-- The haversine distance between `(0°, 0°)` and its antipode
`(0°, 180°)` is half the Earth circumference, `3959 π` miles. -/
theorem haversine_antipode :
    RiskEngine.haversine_distance 0 0 0 180 = 3959 * Real.pi := by
  have h1 : RiskEngine.radians 0 = 0 := by
    simp [RiskEngine.radians]
  have h2 : RiskEngine.radians 180 = Real.pi := by
    unfold RiskEngine.radians
    field_simp
  simp only [RiskEngine.haversine_distance, h1, h2, sub_zero]
  norm_num [Real.sin_pi_div_two, Real.sqrt_one, atan2_one_zero]
  ring

/-- The antipodal distance exceeds the 3000-mile threshold. -/
theorem haversine_antipode_gt_3000 :
    RiskEngine.haversine_distance 0 0 0 180 > 3000 := by
  rw [haversine_antipode]
  nlinarith [Real.pi_gt_three]

/-- Claim C2, counterexample: with 1000 hours elapsed between the two
logins, human travel at 500 mph could cover the antipodal distance —
the claim would require no trigger — yet the check triggers: the code
compares only the distance to the hardcoded 3000-mile threshold and
never reads any elapsed time (the cached location carries no
timestamp). -/
theorem C2_counterexample :
    (RiskEngine.check_impossible_travel envAtOrigin eventLoginAntipode).1 = true
    ∧ RiskEngine.haversine_distance 0 0 0 180 > 3000
    ∧ ¬ ((1000 : ℝ) < RiskEngine.haversine_distance 0 0 0 180 / 500) := by
  refine ⟨?_, haversine_antipode_gt_3000, ?_⟩
  · simp only [RiskEngine.check_impossible_travel, envAtOrigin, eventLoginAntipode]
    norm_num
    rw [if_pos haversine_antipode_gt_3000]
  · rw [haversine_antipode]
    intro hc
    nlinarith [Real.pi_lt_d2]

/-- Claim C2, amended: for a login event by a user with a stored last
location, the impossible-travel check triggers exactly when the
haversine distance (Earth radius 3959 mi) between the stored and
current locations exceeds the hardcoded 3000-mile threshold; elapsed
time and travel speed play no role. -/
theorem C2_trigger_iff_distance_exceeds_3000 (env : RiskEngine.RedisEnv)
    (event : RiskEngine.SentinelEvent) (last : ℝ × ℝ)
    (hlogin : event.event_type = "authentication.login")
    (hloc : env.last_location = some last) :
    ((RiskEngine.check_impossible_travel env event).1 = true
      ↔ RiskEngine.haversine_distance last.1 last.2
          event.context.geo_lat event.context.geo_lon > 3000) := by
  simp only [RiskEngine.check_impossible_travel, hlogin, hloc]
  norm_num
  split_ifs with h
  · simpa using h
  · simpa using h

/-- Claim C2, witness for the amended theorem: antipodal login over a
cached origin location. -/
theorem C2_trigger_iff_witness :
    (eventLoginAntipode.event_type = "authentication.login")
    ∧ (envAtOrigin.last_location = some (0, 0))
    ∧ ((RiskEngine.check_impossible_travel envAtOrigin eventLoginAntipode).1 = true
        ↔ RiskEngine.haversine_distance (0, 0).1 (0, 0).2
            eventLoginAntipode.context.geo_lat eventLoginAntipode.context.geo_lon > 3000) :=
  ⟨rfl, rfl, C2_trigger_iff_distance_exceeds_3000 envAtOrigin eventLoginAntipode (0, 0) rfl rfl⟩

/-- Claim C5, counterexample: after appending entries A then B and
altering the stored payload of A, verification reports hash-mismatch
anomalies — one identifying A (and one for B, because `log_event`
hashes a timestamp taken before the one it stores, so recomputation
from the stored row differs) — but it does not flag B as chain-broken:
the stored `previous_hash` of B still equals the stored (unchanged)
`current_hash` of A, so the linkage check passes. -/
theorem C5_counterexample :
    CryptoAudit.verify_chain_integrity shaModel tamperedAB
      = [(0, CryptoAudit.IssueKind.tampering), (1, CryptoAudit.IssueKind.tampering)]
    ∧ ¬ ((1, CryptoAudit.IssueKind.chain_broken) ∈
        CryptoAudit.verify_chain_integrity shaModel tamperedAB) := by
  refine ⟨rfl, ?_⟩
  rw [show CryptoAudit.verify_chain_integrity shaModel tamperedAB
      = [(0, CryptoAudit.IssueKind.tampering), (1, CryptoAudit.IssueKind.tampering)] from rfl]
  decide

/-- Claim C5, amended: tampering with the stored payload of the first
of two appended entries makes verification report a hash-mismatch
anomaly identifying that entry, and no entry is ever flagged as
chain-broken — the linkage check compares only stored hashes, and the
stored `previous_hash` of the second entry still matches the stored
`current_hash` of the first, which altering the payload does not
change.  (The second entry may carry its own hash-mismatch anomaly,
since the source hashes a timestamp taken before the one it stores.) -/
theorem C5_tamper_first_of_two_flags_only_first (sha : String → String)
    (a0 a1 : Option String) (e0 e1 : String)
    (p0 p1 q : List (String × Jv)) (th0 ts0 th1 ts1 : String)
    (hne : CryptoAudit.calculate_hash sha none a0 e0 q ts0
      ≠ CryptoAudit.calculate_hash sha none a0 e0 (CryptoAudit.scrub_payload p0) th0) :
    ((0, CryptoAudit.IssueKind.tampering) ∈
      CryptoAudit.verify_chain_integrity sha
        (CryptoAudit.tamper_payload
          (CryptoAudit.log_event sha (CryptoAudit.log_event sha [] a0 e0 p0 th0 ts0)
            a1 e1 p1 th1 ts1)
          0 q))
    ∧ ∀ i, ¬ ((i, CryptoAudit.IssueKind.chain_broken) ∈
      CryptoAudit.verify_chain_integrity sha
        (CryptoAudit.tamper_payload
          (CryptoAudit.log_event sha (CryptoAudit.log_event sha [] a0 e0 p0 th0 ts0)
            a1 e1 p1 th1 ts1)
          0 q)) := by
  have hV : CryptoAudit.verify_chain_integrity sha
      (CryptoAudit.tamper_payload
        (CryptoAudit.log_event sha (CryptoAudit.log_event sha [] a0 e0 p0 th0 ts0)
          a1 e1 p1 th1 ts1)
        0 q)
      = (0, CryptoAudit.IssueKind.tampering) ::
        (if CryptoAudit.calculate_hash sha
              (some (CryptoAudit.calculate_hash sha none a0 e0
                (CryptoAudit.scrub_payload p0) th0))
              a1 e1 (CryptoAudit.scrub_payload p1) ts1
            ≠ CryptoAudit.calculate_hash sha
              (some (CryptoAudit.calculate_hash sha none a0 e0
                (CryptoAudit.scrub_payload p0) th0))
              a1 e1 (CryptoAudit.scrub_payload p1) th1
         then [(1, CryptoAudit.IssueKind.tampering)] else []) := by
    simp [CryptoAudit.log_event, CryptoAudit.tamper_payload,
      CryptoAudit.verify_chain_integrity, CryptoAudit.verifyFrom, hne]
  rw [hV]
  refine ⟨List.mem_cons_self _ _, fun i hmem => ?_⟩
  rcases List.mem_cons.mp hmem with h | h
  · simp at h
  · by_cases hB : CryptoAudit.calculate_hash sha
        (some (CryptoAudit.calculate_hash sha none a0 e0
          (CryptoAudit.scrub_payload p0) th0))
        a1 e1 (CryptoAudit.scrub_payload p1) ts1
      ≠ CryptoAudit.calculate_hash sha
        (some (CryptoAudit.calculate_hash sha none a0 e0
          (CryptoAudit.scrub_payload p0) th0))
        a1 e1 (CryptoAudit.scrub_payload p1) th1
    · rw [if_pos hB] at h
      simp at h
    · rw [if_neg hB] at h
      simp at h

/-- Claim C5, witness for the amended theorem on the concrete two-entry
chain with distinct hashed and stored timestamps. -/
theorem C5_tamper_first_witness :
    (CryptoAudit.calculate_hash shaModel none (some "alice") "rule_updated"
        [("amount", Jv.num 999)] "t1s"
      ≠ CryptoAudit.calculate_hash shaModel none (some "alice") "rule_updated"
        (CryptoAudit.scrub_payload [("amount", Jv.num 1)]) "t1h")
    ∧ (((0, CryptoAudit.IssueKind.tampering) ∈
        CryptoAudit.verify_chain_integrity shaModel
          (CryptoAudit.tamper_payload
            (CryptoAudit.log_event shaModel
              (CryptoAudit.log_event shaModel [] (some "alice") "rule_updated"
                [("amount", Jv.num 1)] "t1h" "t1s")
              (some "bob") "rule_deleted" [("amount", Jv.num 2)] "t2h" "t2s")
            0 [("amount", Jv.num 999)]))
      ∧ ∀ i, ¬ ((i, CryptoAudit.IssueKind.chain_broken) ∈
        CryptoAudit.verify_chain_integrity shaModel
          (CryptoAudit.tamper_payload
            (CryptoAudit.log_event shaModel
              (CryptoAudit.log_event shaModel [] (some "alice") "rule_updated"
                [("amount", Jv.num 1)] "t1h" "t1s")
              (some "bob") "rule_deleted" [("amount", Jv.num 2)] "t2h" "t2s")
            0 [("amount", Jv.num 999)]))) :=
  ⟨by decide, C5_tamper_first_of_two_flags_only_first shaModel (some "alice") (some "bob")
    "rule_updated" "rule_deleted" [("amount", Jv.num 1)] [("amount", Jv.num 2)]
    [("amount", Jv.num 999)] "t1h" "t1s" "t2h" "t2s" (by decide)⟩
